import Mathlib

/-
Verification of the cs-match-summary-bot match-ingestion pipeline.

The Go sources are embedded shallowly:
  * the three persisted entities (User, Guild, Game) become structures over
    String identifiers; the PostgreSQL store becomes a `Store` of lists,
    every mutation a pure function on it;
  * database getters wrap the driver's no-rows condition in a new error
    value (Go's `fmt.Errorf("...: %w", err)` produces an error distinct
    from `sql.ErrNoRows` under `==`), modelled by the `DBErr.wrapped`
    constructor;
  * the Steam poller (steam_poller.go) becomes functions over a
    `PollerState`; its outbound getDemo requests are recorded in a
    `demoRequests` log, and the success of the external call is an oracle
    `downloadOk : String → Bool`;
  * the webhook handlers (webhook_handlers.go) become functions from a
    payload and a store to a result holding the HTTP status, the new store,
    and the observed side effects (parse requests, Discord notifications).
-/

set_option autoImplicit false

namespace CSBot

/-- User row (models.go / users table): a linked Steam account. -/
structure User where
  uuid : String
  steamID : String
  authCode : String
  lastShareCode : String
  gameIDs : List String
deriving DecidableEq, Repr

/-- Guild row (models.go / guilds table): a Discord server context. -/
structure Guild where
  uuid : String
  guildID : String
  channelID : String
  userIDs : List String
  gameIDs : List String
deriving DecidableEq, Repr

/-- Game row (models.go / games table): one CS match keyed by share code. -/
structure Game where
  uuid : String
  shareCode : String
  demoName : String
  steamIDs : List String
deriving DecidableEq, Repr

/-- The persistent store: the three tables of the PostgreSQL database. -/
structure Store where
  users : List User
  guilds : List Guild
  games : List Game
deriving DecidableEq, Repr

/-- Database-layer errors. `noRows` is `sql.ErrNoRows`; `wrapped e` is the
error produced by Go's `fmt.Errorf` with the `%w` verb applied to `e` (a
fresh error value: comparing it to `sql.ErrNoRows` with `==` yields false);
`other` covers the remaining storage failures. -/
inductive DBErr where
  | noRows
  | wrapped (e : DBErr)
  | other (msg : String)
deriving DecidableEq, Repr

/-- getUserBySteamID (database.go): a row lookup whose failure is wrapped by
`fmt.Errorf("failed to get user: %w", err)`. -/
def getUserBySteamID (st : Store) (steamID : String) : Except DBErr User :=
  match st.users.find? (fun u => u.steamID == steamID) with
  | some u => .ok u
  | none => .error (.wrapped .noRows)

/-- getGuildByGuildID (database.go): wraps its lookup failure the same way. -/
def getGuildByGuildID (st : Store) (guildID : String) : Except DBErr Guild :=
  match st.guilds.find? (fun g => g.guildID == guildID) with
  | some g => .ok g
  | none => .error (.wrapped .noRows)

/-- getGameByShareCode (database.go): wraps its lookup failure with
`fmt.Errorf("failed to get game: %w", err)`. -/
def getGameByShareCode (st : Store) (shareCode : String) : Except DBErr Game :=
  match st.games.find? (fun g => g.shareCode == shareCode) with
  | some g => .ok g
  | none => .error (.wrapped .noRows)

/-- updateUserLastShareCode (database.go): UPDATE users SET last_share_code
WHERE steam_id matches. -/
def updateUserLastShareCode (st : Store) (steamID shareCode : String) : Store :=
  { st with users := st.users.map (fun u =>
      if u.steamID == steamID then { u with lastShareCode := shareCode } else u) }

/-- updateGame (database.go): UPDATE games SET demo_name, steam_ids WHERE uuid. -/
def updateGame (st : Store) (game : Game) : Store :=
  { st with games := st.games.map (fun g =>
      if g.uuid == game.uuid then
        { g with demoName := game.demoName, steamIDs := game.steamIDs }
      else g) }

/-- createGame (database.go): INSERT a new games row; the generated
`uuid.New()` value is passed in as `newUUID`. -/
def createGame (newUUID : String) (st : Store) (shareCode demoName : String)
    (steamIDs : List String) : Game × Store :=
  let game : Game :=
    { uuid := newUUID, shareCode := shareCode, demoName := demoName, steamIDs := steamIDs }
  (game, { st with games := st.games ++ [game] })

/-- addUserToGuild (database.go): UPDATE appending the user UUID to the
guild's user_ids array, guarded by `AND NOT (user_ids @> $2::jsonb)` so an
already-present reference leaves the row untouched. -/
def addUserToGuild (st : Store) (guildID userUUID : String) : Store :=
  { st with guilds := st.guilds.map (fun g =>
      if g.guildID == guildID && !(g.userIDs.contains userUUID) then
        { g with userIDs := g.userIDs ++ [userUUID] }
      else g) }

/-- addGameToGuild (database.go): same guarded-append pattern on game_ids. -/
def addGameToGuild (st : Store) (guildID gameUUID : String) : Store :=
  { st with guilds := st.guilds.map (fun g =>
      if g.guildID == guildID && !(g.gameIDs.contains gameUUID) then
        { g with gameIDs := g.gameIDs ++ [gameUUID] }
      else g) }

/-- addGameToUser (database.go): same guarded-append pattern on the users
table, keyed by steam_id. -/
def addGameToUser (st : Store) (steamID gameUUID : String) : Store :=
  { st with users := st.users.map (fun u =>
      if u.steamID == steamID && !(u.gameIDs.contains gameUUID) then
        { u with gameIDs := u.gameIDs ++ [gameUUID] }
      else u) }

/-- In-memory poller bookkeeping (steam_poller.go). `processedCodes` is the
key set of the `processedCodes map[string]bool` dedup guard; `demoRequests`
is an observation log of the getDemo requests issued (by share code). -/
structure PollerState where
  processedCodes : List String
  demoRequests : List String
deriving DecidableEq, Repr

/-- Discovery test from pollAllUsers (steam_poller.go): a polled nextcode
counts as a new match when it is nonempty, not the sentinel "n/a", and
differs from the account's last known share code. -/
def discoversNew (u : User) (nextCode : String) : Bool :=
  nextCode != "" && nextCode != "n/a" && nextCode != u.lastShareCode

/-- Insertion into the per-cycle `currentCodes` grouping (share code to the
users that reported it), represented as an association list in first-seen
order. -/
def addToGroups (groups : List (String × List String)) (code steamID : String) :
    List (String × List String) :=
  match groups with
  | [] => [(code, [steamID])]
  | (c, ids) :: rest =>
      if c == code then (c, ids ++ [steamID]) :: rest
      else (c, ids) :: addToGroups rest code steamID

/-- Loop body of the grouping pass of pollAllUsers (steam_poller.go): skip
an account without a last share code, skip an account whose poll failed
(`poll u = none`), and record a discovered new code under that code. -/
def pollStep (poll : User → Option String) (groups : List (String × List String))
    (u : User) : List (String × List String) :=
  if u.lastShareCode == "" then groups
  else
    match poll u with
    | none => groups
    | some nextCode =>
        if discoversNew u nextCode then addToGroups groups nextCode u.steamID
        else groups

/-- The grouping pass of pollAllUsers (steam_poller.go): the `currentCodes`
map built over all registered accounts in one cycle. -/
def buildGroups (poll : User → Option String) (users : List User) :
    List (String × List String) :=
  users.foldl (pollStep poll) []

/-- processNewMatch (steam_poller.go): skip a share code already in the
dedup set; otherwise mark it, update every reporting account's last share
code, issue the getDemo request once, and un-mark the code if that request
fails so a later discovery can retry. -/
def processNewMatch (downloadOk : String → Bool) (shareCode : String)
    (reporting : List String) (st : Store) (ps : PollerState) : Store × PollerState :=
  if ps.processedCodes.contains shareCode then
    (st, ps)
  else
    let ps1 : PollerState := { ps with processedCodes := ps.processedCodes ++ [shareCode] }
    let st1 : Store :=
      reporting.foldl (fun acc sid => updateUserLastShareCode acc sid shareCode) st
    let ps2 : PollerState := { ps1 with demoRequests := ps1.demoRequests ++ [shareCode] }
    if downloadOk shareCode then (st1, ps2)
    else (st1, { ps2 with processedCodes := ps2.processedCodes.filter (fun c => c != shareCode) })

/-- pollAllUsers (steam_poller.go): one poll cycle over the registered
accounts, grouping discovered codes and processing each distinct code once. -/
def pollAllUsers (downloadOk : String → Bool) (poll : User → Option String)
    (st : Store) (ps : PollerState) : Store × PollerState :=
  (buildGroups poll st.users).foldl
    (fun acc g => processNewMatch downloadOk g.1 g.2 acc.1 acc.2) (st, ps)

/-- CleanupProcessedCodes (steam_poller.go): clear the dedup set entirely
once it has grown past 1000 entries, otherwise leave it untouched. -/
def CleanupProcessedCodes (ps : PollerState) : PollerState :=
  if ps.processedCodes.length > 1000 then { ps with processedCodes := [] } else ps

/-- Modelled from the spec: the entry-point file that schedules poller
maintenance (the repository's main.go, absent from src, which also owns the
`steamPoller` global referenced by webhook_handlers.go) periodically invokes
CleanupProcessedCodes on the poller, per the spec's bounded-set requirement
and the repository's feature notes ("Automatically cleans up processed codes
cache (hourly)"). A maintenance tick is that invocation. -/
def hourlyCleanup (ps : PollerState) : PollerState :=
  CleanupProcessedCodes ps

/-- The Discord embed built by sendMatchSummary (webhook_handlers.go): share
code, demo file, participant count, the registered players of the receiving
guild, and whether a stats field was attached. -/
structure MatchSummaryEmbed where
  shareCode : String
  demoName : String
  playerCount : Nat
  registeredPlayers : List String
  hasStats : Bool
deriving DecidableEq, Repr

/-- The registered-players loop of sendMatchSummary (webhook_handlers.go):
participants of the match that resolve to a stored user whose UUID is a
member of the receiving guild. -/
def registeredPlayersForGuild (st : Store) (guild : Guild) (game : Game) : List String :=
  game.steamIDs.foldl (fun acc sid =>
    match getUserBySteamID st sid with
    | .ok user => if guild.userIDs.contains user.uuid then acc ++ [sid] else acc
    | .error _ => acc) []

/-- sendMatchSummary (webhook_handlers.go): the embed content delivered to
one guild's channel. -/
def sendMatchSummary (st : Store) (guild : Guild) (game : Game) (hasStats : Bool) :
    MatchSummaryEmbed :=
  { shareCode := game.shareCode
    demoName := game.demoName
    playerCount := game.steamIDs.length
    registeredPlayers := registeredPlayersForGuild st guild game
    hasStats := hasStats }

/-- Inner loop body of sendMatchSummaryToGuilds (webhook_handlers.go): a
guild holding the resolved user is collected, keyed by guild ID so a guild
already collected is not collected again (the Go map insert by GuildID). -/
def guildScanStep (userUUID : String) (acc : List Guild) (g : Guild) : List Guild :=
  if g.userIDs.contains userUUID && !(acc.any (fun g2 => g2.guildID == g.guildID)) then
    acc ++ [g]
  else acc

/-- Outer loop body of sendMatchSummaryToGuilds (webhook_handlers.go): a
participant that does not resolve to a stored user is skipped; a resolved
participant triggers a scan of all guilds. -/
def notifyScanUser (st : Store) (acc : List Guild) (sid : String) : List Guild :=
  match getUserBySteamID st sid with
  | .error _ => acc
  | .ok user => st.guilds.foldl (guildScanStep user.uuid) acc

/-- The guild-accumulation loops of sendMatchSummaryToGuilds
(webhook_handlers.go): for every participant that resolves to a stored user,
scan all guilds and collect each guild holding that user, at most once per
guild ID. -/
def guildsToNotify (st : Store) (game : Game) : List Guild :=
  game.steamIDs.foldl (notifyScanUser st) []

/-- sendMatchSummaryToGuilds (webhook_handlers.go): fails only when no
Discord session is available; otherwise one notification per collected
guild, tagged with the receiving guild's ID. -/
def sendMatchSummaryToGuilds (sessionAvailable : Bool) (st : Store) (game : Game)
    (hasStats : Bool) : Except String (List (String × MatchSummaryEmbed)) :=
  if sessionAvailable then
    .ok ((guildsToNotify st game).map (fun g => (g.guildID, sendMatchSummary st g game hasStats)))
  else
    .error "Discord session not available"

/-- Payload of the demoReady webhook (webhook_handlers.go), with the nested
data fields flattened. -/
structure DemoReadyPayload where
  success : Bool
  message : String
  shareCode : String
  demoPath : String
deriving DecidableEq, Repr

/-- Payload of the demoParsed webhook (webhook_handlers.go); `hasStats`
records whether the opaque stats field was non-nil. -/
structure DemoParsedPayload where
  success : Bool
  message : String
  shareCode : String
  demoPath : String
  hasStats : Bool
deriving DecidableEq, Repr

/-- Result of running a webhook handler: HTTP status, the store afterwards,
the parseDemo requests issued, and the notifications sent. -/
structure WebhookResult where
  status : Nat
  store : Store
  parseRequests : List String
  notifications : List (String × MatchSummaryEmbed)
deriving DecidableEq, Repr

/-- createOrUpdateGame (webhook_handlers.go): `if err == sql.ErrNoRows`
create the game, `else if err != nil` propagate, else update the demo path.
The lookup it calls wraps sql.ErrNoRows, so the equality test compares
`DBErr.wrapped DBErr.noRows` against `DBErr.noRows`. -/
def createOrUpdateGame (newUUID : String) (st : Store) (shareCode demoPath : String) :
    Except DBErr (Game × Store) :=
  match getGameByShareCode st shareCode with
  | .error e =>
      if e = DBErr.noRows then
        .ok (createGame newUUID st shareCode demoPath [])
      else
        .error (.wrapped e)
  | .ok game =>
      let game2 : Game := { game with demoName := demoPath }
      .ok (game2, updateGame st game2)

/-- HandleDemoReady (webhook_handlers.go): validate, create-or-update the
game, then request parsing through the poller when one is wired; a parsing
failure is only logged, the response stays 200. -/
def HandleDemoReady (newUUID : String) (pollerPresent : Bool) (st : Store)
    (payload : DemoReadyPayload) : WebhookResult :=
  if !payload.success then
    { status := 400, store := st, parseRequests := [], notifications := [] }
  else if payload.shareCode == "" || payload.demoPath == "" then
    { status := 400, store := st, parseRequests := [], notifications := [] }
  else
    match createOrUpdateGame newUUID st payload.shareCode payload.demoPath with
    | .error _ => { status := 500, store := st, parseRequests := [], notifications := [] }
    | .ok (_, st2) =>
        { status := 200, store := st2
          parseRequests := if pollerPresent then [payload.shareCode] else []
          notifications := [] }

/-- HandleDemoParsed (webhook_handlers.go): validate, fetch the game, and
fan the summary out to the interested guilds; a fan-out failure is only
logged, the response stays 200. -/
def HandleDemoParsed (st : Store) (payload : DemoParsedPayload) : WebhookResult :=
  if !payload.success then
    { status := 400, store := st, parseRequests := [], notifications := [] }
  else if payload.shareCode == "" then
    { status := 400, store := st, parseRequests := [], notifications := [] }
  else
    match getGameByShareCode st payload.shareCode with
    | .error _ => { status := 500, store := st, parseRequests := [], notifications := [] }
    | .ok game =>
        match sendMatchSummaryToGuilds true st game payload.hasStats with
        | .ok notifs =>
            { status := 200, store := st, parseRequests := [], notifications := notifs }
        | .error _ =>
            { status := 200, store := st, parseRequests := [], notifications := [] }

/-- Route selection for the demoParsed endpoint in StartServer
(webhooks/server.go): the configured handler when one is injected, otherwise
a stub that acknowledges with 200 and performs no processing. -/
def demoParsedRoute (configured : Option (Store → DemoParsedPayload → WebhookResult)) :
    Store → DemoParsedPayload → WebhookResult :=
  match configured with
  | some h => h
  | none => fun st _ =>
      { status := 200, store := st, parseRequests := [], notifications := [] }

/-- Modelled from the spec: the current entry point (the repository's
main.go, absent from src; the main function present in src predates the
poller and the steamPoller global) registers HandleDemoParsed for the
demoParsed route, per the spec's description of the Webhook Ingestor and the
repository's feature notes on the demoParsed endpoint. -/
def mainDemoParsedHandler : Store → DemoParsedPayload → WebhookResult :=
  demoParsedRoute (some HandleDemoParsed)

/-- HandleMatchQuery (webhook_handlers.go): 404 only when the lookup error
equals sql.ErrNoRows, 500 for every other lookup error. -/
def HandleMatchQuery (st : Store) (shareCode : String) : Nat :=
  if shareCode == "" then 400
  else
    match getGameByShareCode st shareCode with
    | .ok _ => 200
    | .error e => if e = DBErr.noRows then 404 else 500

/-- HandleUserQuery (webhook_handlers.go): same status logic on the users
table. -/
def HandleUserQuery (st : Store) (steamID : String) : Nat :=
  if steamID == "" then 400
  else
    match getUserBySteamID st steamID with
    | .ok _ => 200
    | .error e => if e = DBErr.noRows then 404 else 500

/-- HandleGuildQuery (webhook_handlers.go): same status logic on the guilds
table. -/
def HandleGuildQuery (st : Store) (guildID : String) : Nat :=
  if guildID == "" then 400
  else
    match getGuildByGuildID st guildID with
    | .ok _ => 200
    | .error e => if e = DBErr.noRows then 404 else 500

/-- Predicate characterising the registered-players loop of
sendMatchSummary: the participant resolves to a stored user that is a member
of the given guild. -/
def isRegisteredMember (st : Store) (guild : Guild) (sid : String) : Bool :=
  match getUserBySteamID st sid with
  | .ok user => guild.userIDs.contains user.uuid
  | .error _ => false

theorem map_idem_of_fix {α : Type _} {f : α → α} (h : ∀ a, f (f a) = f a) :
    ∀ l : List α, (l.map f).map f = l.map f := by
  intro l
  induction l with
  | nil => rfl
  | cons a t ih => simp only [List.map_cons, h a, ih]

/-- C8. Reference-add operations are idempotent: a second addUserToGuild,
addGameToGuild or addGameToUser call with the same pair leaves the store —
and hence the association set and its cardinality — exactly unchanged. -/
theorem addReference_idempotent (st : Store) (gid sid uuidRef : String) :
    addUserToGuild (addUserToGuild st gid uuidRef) gid uuidRef = addUserToGuild st gid uuidRef ∧
    addGameToGuild (addGameToGuild st gid uuidRef) gid uuidRef = addGameToGuild st gid uuidRef ∧
    addGameToUser (addGameToUser st sid uuidRef) sid uuidRef = addGameToUser st sid uuidRef := by
  refine ⟨?_, ?_, ?_⟩
  · simp only [addUserToGuild]
    congr 1
    apply map_idem_of_fix
    intro g
    by_cases h2 : uuidRef ∈ g.userIDs
    · simp [h2]
    · by_cases h1 : g.guildID = gid
      · simp [h1, h2]
      · simp [h1]
  · simp only [addGameToGuild]
    congr 1
    apply map_idem_of_fix
    intro g
    by_cases h2 : uuidRef ∈ g.gameIDs
    · simp [h2]
    · by_cases h1 : g.guildID = gid
      · simp [h1, h2]
      · simp [h1]
  · simp only [addGameToUser]
    congr 1
    apply map_idem_of_fix
    intro u
    by_cases h2 : uuidRef ∈ u.gameIDs
    · simp [h2]
    · by_cases h1 : u.steamID = sid
      · simp [h1, h2]
      · simp [h1]

/-- C5. The read-only query endpoints do not return 404 for an absent
entity: the getters wrap sql.ErrNoRows, so the handlers' equality test
against sql.ErrNoRows never fires and an absent match, user or guild is
answered with 500. -/
theorem queryAbsentEntity_returns500 :
    HandleMatchQuery { users := [], guilds := [], games := [] } "CSGO-UNKNOWN" = 500 ∧
    HandleUserQuery { users := [], guilds := [], games := [] } "76561198000000001" = 500 ∧
    HandleGuildQuery { users := [], guilds := [], games := [] } "123456789012345678" = 500 := by
  refine ⟨rfl, rfl, rfl⟩

/-- C3. A demoReady webhook for a share code not in the store is answered
with 500 and no Match record is created: getGameByShareCode wraps
sql.ErrNoRows, so createOrUpdateGame's create branch is unreachable. -/
theorem demoReadyUnknownMatch_returns500 :
    (HandleDemoReady "uuid-new" true { users := [], guilds := [], games := [] }
        { success := true, message := "ok", shareCode := "CSGO-C2", demoPath := "demo.dem" }).status
      = 500 ∧
    (HandleDemoReady "uuid-new" true { users := [], guilds := [], games := [] }
        { success := true, message := "ok", shareCode := "CSGO-C2", demoPath := "demo.dem" }).store.games
      = [] ∧
    (HandleDemoReady "uuid-new" true { users := [], guilds := [], games := [] }
        { success := true, message := "ok", shareCode := "CSGO-C2", demoPath := "demo.dem" }).parseRequests
      = [] := by
  refine ⟨rfl, rfl, rfl⟩

theorem processNewMatch_not_processed (downloadOk : String → Bool) (T : String)
    (reporting : List String) (st : Store) (ps : PollerState)
    (h : ps.processedCodes.contains T = false) :
    processNewMatch downloadOk T reporting st ps =
      (reporting.foldl (fun acc sid => updateUserLastShareCode acc sid T) st,
       if downloadOk T then
         { processedCodes := ps.processedCodes ++ [T], demoRequests := ps.demoRequests ++ [T] }
       else
         { processedCodes := (ps.processedCodes ++ [T]).filter (fun c => c != T),
           demoRequests := ps.demoRequests ++ [T] }) := by
  have hnotin : T ∉ ps.processedCodes := by simpa using h
  unfold processNewMatch
  cases hdl : downloadOk T <;> simp [hnotin, hdl]

theorem foldl_updateUserLastShareCode (T : String) :
    ∀ (sids : List String) (st : Store),
      (sids.foldl (fun acc sid => updateUserLastShareCode acc sid T) st).users
        = st.users.map (fun u =>
            if sids.contains u.steamID then { u with lastShareCode := T } else u) := by
  intro sids
  induction sids with
  | nil => intro st; simp
  | cons sid rest ih =>
      intro st
      rw [List.foldl_cons, ih]
      simp only [updateUserLastShareCode, List.map_map]
      apply List.map_congr_left
      intro u _
      by_cases hs : u.steamID = sid <;> by_cases hr : u.steamID ∈ rest <;>
        simp [Function.comp, hs, hr, List.contains_cons]

theorem addToGroups_same (T sid : String) (ids : List String)
    (rest : List (String × List String)) :
    addToGroups ((T, ids) :: rest) T sid = (T, ids ++ [sid]) :: rest := by
  simp [addToGroups]

theorem pollStep_same (poll : User → Option String) (T : String) (u : User)
    (h1 : u.lastShareCode ≠ "") (h2 : poll u = some T) (h3 : discoversNew u T = true)
    (groups : List (String × List String)) :
    pollStep poll groups u = addToGroups groups T u.steamID := by
  simp [pollStep, h1, h2, h3]

theorem foldl_pollStep_same (poll : User → Option String) (T : String) :
    ∀ (us : List User) (ids : List String),
      (∀ u ∈ us, u.lastShareCode ≠ "" ∧ poll u = some T ∧ discoversNew u T = true) →
      us.foldl (pollStep poll) [(T, ids)]
        = [(T, ids ++ us.map (fun u => u.steamID))] := by
  intro us
  induction us with
  | nil => intro ids _; simp
  | cons u rest ih =>
      intro ids hall
      have hu := hall u (by simp)
      rw [List.foldl_cons, pollStep_same poll T u hu.1 hu.2.1 hu.2.2, addToGroups_same,
          ih (ids ++ [u.steamID]) (fun v hv => hall v (by simp [hv]))]
      simp

theorem buildGroups_all_same (poll : User → Option String) (T : String)
    (u0 : User) (rest : List User)
    (hall : ∀ u ∈ u0 :: rest,
        u.lastShareCode ≠ "" ∧ poll u = some T ∧ discoversNew u T = true) :
    buildGroups poll (u0 :: rest) = [(T, (u0 :: rest).map (fun u => u.steamID))] := by
  have h0 := hall u0 (by simp)
  unfold buildGroups
  rw [List.foldl_cons, pollStep_same poll T u0 h0.1 h0.2.1 h0.2.2]
  show List.foldl (pollStep poll) [(T, [u0.steamID])] rest = _
  rw [foldl_pollStep_same poll T rest [u0.steamID] (fun v hv => hall v (by simp [hv]))]
  simp

/-- C1. One poll cycle in which all registered accounts (at least one)
report the same new token T, with T not yet in the dedup set: the getDemo
request for T is issued exactly once, and every account's last share code
ends up equal to T. -/
theorem dedupCorrectness_pollCycle (downloadOk : String → Bool)
    (poll : User → Option String) (st : Store) (ps : PollerState) (T : String)
    (hproc : ps.processedCodes.contains T = false)
    (hne : st.users ≠ [])
    (hall : ∀ u ∈ st.users,
        u.lastShareCode ≠ "" ∧ poll u = some T ∧ discoversNew u T = true) :
    (pollAllUsers downloadOk poll st ps).2.demoRequests.count T
        = ps.demoRequests.count T + 1 ∧
    ∀ u ∈ (pollAllUsers downloadOk poll st ps).1.users, u.lastShareCode = T := by
  obtain ⟨u0, rest, hcons⟩ := List.exists_cons_of_ne_nil hne
  unfold pollAllUsers
  rw [hcons, buildGroups_all_same poll T u0 rest (fun u hu => hall u (hcons.symm ▸ hu))]
  rw [List.foldl_cons, List.foldl_nil]
  rw [processNewMatch_not_processed downloadOk T _ st ps hproc]
  constructor
  · cases hdl : downloadOk T <;> simp [hdl]
  · intro u hu
    rw [foldl_updateUserLastShareCode] at hu
    obtain ⟨v, hv, rfl⟩ := List.mem_map.1 hu
    have hm : v.steamID ∈ (u0 :: rest).map (fun u => u.steamID) :=
      List.mem_map.2 ⟨v, hcons ▸ hv, rfl⟩
    have hcon : ((u0 :: rest).map (fun u => u.steamID)).contains v.steamID = true := by
      simpa using hm
    rw [if_pos hcon]

/-- C6. After a share code T not yet in the dedup set is processed: if the
getDemo request failed, T is absent from the set again and a second
discovery of T issues the request anew; if the request succeeded, T stays
in the set and a second discovery of T is a complete no-op. -/
theorem retryAfterFailure (downloadOk : String → Bool) (T : String)
    (reporting reporting2 : List String) (st : Store) (ps : PollerState)
    (hproc : ps.processedCodes.contains T = false) :
    (downloadOk T = false →
        (processNewMatch downloadOk T reporting st ps).2.processedCodes.contains T = false ∧
        (processNewMatch downloadOk T reporting2
            (processNewMatch downloadOk T reporting st ps).1
            (processNewMatch downloadOk T reporting st ps).2).2.demoRequests.count T
          = (processNewMatch downloadOk T reporting st ps).2.demoRequests.count T + 1) ∧
    (downloadOk T = true →
        (processNewMatch downloadOk T reporting st ps).2.processedCodes.contains T = true ∧
        processNewMatch downloadOk T reporting2
            (processNewMatch downloadOk T reporting st ps).1
            (processNewMatch downloadOk T reporting st ps).2
          = ((processNewMatch downloadOk T reporting st ps).1,
             (processNewMatch downloadOk T reporting st ps).2)) := by
  rw [processNewMatch_not_processed downloadOk T reporting st ps hproc]
  constructor
  · intro hdl
    simp only [hdl, Bool.false_eq_true, if_false]
    have hagain : (((ps.processedCodes ++ [T]).filter (fun c => c != T)).contains T) = false := by
      simp
    constructor
    · exact hagain
    · rw [processNewMatch_not_processed downloadOk T reporting2 _ _ hagain]
      simp [hdl]
  · intro hdl
    simp only [hdl, if_true]
    constructor
    · simp
    · unfold processNewMatch
      simp

theorem addToGroups_sound :
    ∀ (gs : List (String × List String)) (c sid c2 : String) (ids2 : List String),
      (c2, ids2) ∈ addToGroups gs c sid → ∀ x ∈ ids2,
        (∃ ids0, (c2, ids0) ∈ gs ∧ x ∈ ids0) ∨ (c2 = c ∧ x = sid) := by
  intro gs
  induction gs with
  | nil =>
      intro c sid c2 ids2 hmem x hx
      simp only [addToGroups, List.mem_singleton, Prod.mk.injEq] at hmem
      obtain ⟨rfl, rfl⟩ := hmem
      simp only [List.mem_singleton] at hx
      exact Or.inr ⟨rfl, hx⟩
  | cons p rest ih =>
      intro c sid c2 ids2 hmem x hx
      obtain ⟨c0, ids0⟩ := p
      cases hc : c0 == c
      · simp only [addToGroups, hc, Bool.false_eq_true, if_false, List.mem_cons,
          Prod.mk.injEq] at hmem
        rcases hmem with ⟨he1, he2⟩ | hmem
        · refine Or.inl ⟨ids2, ?_, hx⟩
          rw [he1, he2]
          exact List.mem_cons_self _ _
        · rcases ih c sid c2 ids2 hmem x hx with ⟨ids1, hin, hxin⟩ | hr
          · exact Or.inl ⟨ids1, List.mem_cons_of_mem _ hin, hxin⟩
          · exact Or.inr hr
      · have hceq : c0 = c := by simpa using hc
        simp only [addToGroups, hc, if_true, List.mem_cons, Prod.mk.injEq] at hmem
        rcases hmem with ⟨he1, he2⟩ | hmem
        · rw [he2] at hx
          rcases List.mem_append.1 hx with hx0 | hx1
          · refine Or.inl ⟨ids0, ?_, hx0⟩
            rw [he1]
            exact List.mem_cons_self _ _
          · simp only [List.mem_singleton] at hx1
            exact Or.inr ⟨he1.trans hceq, hx1⟩
        · exact Or.inl ⟨ids2, List.mem_cons_of_mem _ hmem, hx⟩

theorem foldl_pollStep_sound (poll : User → Option String) (allUsers : List User) :
    ∀ (us : List User) (acc : List (String × List String)),
      (∀ u ∈ us, u ∈ allUsers) →
      (∀ c ids, (c, ids) ∈ acc → ∀ x ∈ ids,
          ∃ u ∈ allUsers, u.steamID = x ∧ discoversNew u c = true) →
      ∀ c ids, (c, ids) ∈ us.foldl (pollStep poll) acc → ∀ x ∈ ids,
          ∃ u ∈ allUsers, u.steamID = x ∧ discoversNew u c = true := by
  intro us
  induction us with
  | nil => intro acc _ hacc; simpa using hacc
  | cons u rest ih =>
      intro acc hsub hacc c ids hmem x hx
      rw [List.foldl_cons] at hmem
      refine ih (pollStep poll acc u) (fun v hv => hsub v (by simp [hv])) ?_ c ids hmem x hx
      intro c2 ids2 h2 y hy
      have hu : u ∈ allUsers := hsub u (by simp)
      unfold pollStep at h2
      split at h2
      · exact hacc c2 ids2 h2 y hy
      · cases hp : poll u with
        | none => simp only [hp] at h2; exact hacc c2 ids2 h2 y hy
        | some nc =>
            simp only [hp] at h2
            cases hd : discoversNew u nc
            · simp only [hd, Bool.false_eq_true, if_false] at h2
              exact hacc c2 ids2 h2 y hy
            · simp only [hd, if_true] at h2
              rcases addToGroups_sound acc nc u.steamID c2 ids2 h2 y hy with
                ⟨ids1, hin, hyin⟩ | ⟨rfl, rfl⟩
              · exact hacc c2 ids1 hin y hyin
              · exact ⟨u, hu, rfl, hd⟩

theorem buildGroups_sound (poll : User → Option String) (users : List User)
    (c : String) (ids : List String) (h : (c, ids) ∈ buildGroups poll users)
    (x : String) (hx : x ∈ ids) :
    ∃ u ∈ users, u.steamID = x ∧ discoversNew u c = true :=
  foldl_pollStep_sound poll users users [] (fun _ hu => hu) (by simp) c ids h x hx

/-- C10. If a token T not yet in the dedup set is processed and its getDemo
request fails, the per-account share-code updates persist (every stored
account that reported T keeps last share code T), T is removed from the
dedup set, yet none of those accounts can re-discover T: the poll discovery
test for T is false for them, so no later grouping pass puts them under T. -/
theorem failedDownloadKeepsShareCodes (downloadOk : String → Bool) (T : String)
    (reporting : List String) (st : Store) (ps : PollerState)
    (hproc : ps.processedCodes.contains T = false) (hfail : downloadOk T = false) :
    (∀ u ∈ (processNewMatch downloadOk T reporting st ps).1.users,
        u.steamID ∈ reporting → u.lastShareCode = T) ∧
    (processNewMatch downloadOk T reporting st ps).2.processedCodes.contains T = false ∧
    (∀ u ∈ (processNewMatch downloadOk T reporting st ps).1.users,
        u.steamID ∈ reporting → discoversNew u T = false) ∧
    (∀ (poll : User → Option String) (ids : List String),
        (T, ids) ∈ buildGroups poll (processNewMatch downloadOk T reporting st ps).1.users →
        ∀ sid ∈ reporting, sid ∉ ids) := by
  rw [processNewMatch_not_processed downloadOk T reporting st ps hproc]
  simp only [hfail, Bool.false_eq_true, if_false]
  have husers := foldl_updateUserLastShareCode T reporting st
  have h1 : ∀ u ∈ (reporting.foldl (fun acc sid => updateUserLastShareCode acc sid T) st).users,
      u.steamID ∈ reporting → u.lastShareCode = T := by
    intro u hu hrep
    rw [husers] at hu
    obtain ⟨v, _, rfl⟩ := List.mem_map.1 hu
    cases hc : reporting.contains v.steamID
    · simp only [hc, Bool.false_eq_true, if_false] at hrep ⊢
      have : v.steamID ∈ reporting := hrep
      simp [this] at hc
    · simp [hc]
  have h3 : ∀ u ∈ (reporting.foldl (fun acc sid => updateUserLastShareCode acc sid T) st).users,
      u.steamID ∈ reporting → discoversNew u T = false := by
    intro u hu hrep
    have := h1 u hu hrep
    simp [discoversNew, this]
  refine ⟨h1, by simp, h3, ?_⟩
  intro poll ids hmem sid hsid hin
  obtain ⟨u, hu, husid, hdisc⟩ := buildGroups_sound poll _ T ids hmem sid hin
  have : discoversNew u T = false := h3 u hu (husid ▸ hsid)
  rw [this] at hdisc
  exact Bool.noConfusion hdisc

theorem registeredPlayersForGuild_aux (st : Store) (g : Guild) :
    ∀ (sids : List String) (acc : List String),
      sids.foldl (fun acc sid =>
          match getUserBySteamID st sid with
          | .ok user => if g.userIDs.contains user.uuid then acc ++ [sid] else acc
          | .error _ => acc) acc
        = acc ++ sids.filter (isRegisteredMember st g) := by
  intro sids
  induction sids with
  | nil => intro acc; simp
  | cons sid rest ih =>
      intro acc
      rw [List.foldl_cons]
      cases hu : getUserBySteamID st sid with
      | error e =>
          have hreg : isRegisteredMember st g sid = false := by
            unfold isRegisteredMember
            simp only [hu]
          simp only [hu]
          rw [ih, List.filter_cons]
          simp [hreg]
      | ok user =>
          cases hc : g.userIDs.contains user.uuid
          · have hreg : isRegisteredMember st g sid = false := by
              unfold isRegisteredMember
              simp only [hu]
              exact hc
            simp only [hu, hc, Bool.false_eq_true, if_false]
            rw [ih, List.filter_cons]
            simp [hreg]
          · have hreg : isRegisteredMember st g sid = true := by
              unfold isRegisteredMember
              simp only [hu]
              exact hc
            simp only [hu, hc, if_true]
            rw [ih, List.filter_cons]
            simp [hreg]

theorem registeredPlayersForGuild_eq_filter (st : Store) (g : Guild) (game : Game) :
    registeredPlayersForGuild st g game
      = game.steamIDs.filter (isRegisteredMember st g) := by
  have h := registeredPlayersForGuild_aux st g game.steamIDs []
  simpa [registeredPlayersForGuild] using h

theorem guildScanStep_fold_mono (uu : String) :
    ∀ (l acc : List Guild) (a : Guild),
      a ∈ acc → a ∈ l.foldl (guildScanStep uu) acc := by
  intro l
  induction l with
  | nil => intro acc a ha; simpa using ha
  | cons g l ih =>
      intro acc a ha
      rw [List.foldl_cons]
      apply ih
      unfold guildScanStep
      split
      · exact List.mem_append_left _ ha
      · exact ha

theorem guildScanStep_fold_mem (uu : String) :
    ∀ (l acc : List Guild) (a : Guild),
      a ∈ l.foldl (guildScanStep uu) acc → a ∈ acc ∨ a ∈ l := by
  intro l
  induction l with
  | nil => intro acc a ha; exact Or.inl (by simpa using ha)
  | cons g l ih =>
      intro acc a ha
      rw [List.foldl_cons] at ha
      rcases ih (guildScanStep uu acc g) a ha with h | h
      · unfold guildScanStep at h
        split at h
        · rcases List.mem_append.1 h with h0 | h1
          · exact Or.inl h0
          · simp only [List.mem_singleton] at h1
            exact Or.inr (by simp [h1])
        · exact Or.inl h
      · exact Or.inr (List.mem_cons_of_mem _ h)

theorem guildScanStep_fold_nodup (uu : String) :
    ∀ (l acc : List Guild), (acc.map (fun x => x.guildID)).Nodup →
      ((l.foldl (guildScanStep uu) acc).map (fun x => x.guildID)).Nodup := by
  intro l
  induction l with
  | nil => intro acc h; simpa using h
  | cons g l ih =>
      intro acc h
      rw [List.foldl_cons]
      apply ih
      by_cases hcond :
          (g.userIDs.contains uu && !(acc.any (fun g2 => g2.guildID == g.guildID))) = true
      · have hand := hcond
        rw [Bool.and_eq_true] at hand
        obtain ⟨hA, hB⟩ := hand
        have hany : acc.any (fun g2 => g2.guildID == g.guildID) = false := by
          simpa using hB
        have hnotin : g.guildID ∉ acc.map (fun x => x.guildID) := by
          intro hmem
          obtain ⟨g2, hg2, heq⟩ := List.mem_map.1 hmem
          have htrue : acc.any (fun g2 => g2.guildID == g.guildID) = true :=
            List.any_eq_true.2 ⟨g2, hg2, by simp [heq]⟩
          rw [htrue] at hany
          exact Bool.noConfusion hany
        unfold guildScanStep
        rw [if_pos hcond]
        simp [List.nodup_append, h, hnotin]
      · unfold guildScanStep
        rw [if_neg hcond]
        exact h

theorem guildScanStep_fold_insert (uu : String) (g : Guild)
    (hcont : g.userIDs.contains uu = true) :
    ∀ (l acc : List Guild), g ∈ l →
      ∃ a ∈ l.foldl (guildScanStep uu) acc, a.guildID = g.guildID := by
  intro l
  induction l with
  | nil => intro acc h; simp at h
  | cons g0 l ih =>
      intro acc hg
      rw [List.foldl_cons]
      rcases List.mem_cons.1 hg with heq | hg'
      · subst heq
        cases hany : acc.any (fun g2 => g2.guildID == g.guildID)
        · have hcond :
              (g.userIDs.contains uu && !(acc.any (fun g2 => g2.guildID == g.guildID))) = true := by
            rw [hcont, hany]
            rfl
          have hginstep : g ∈ guildScanStep uu acc g := by
            unfold guildScanStep
            rw [if_pos hcond]
            exact List.mem_append_right _ (by simp)
          exact ⟨g, guildScanStep_fold_mono uu l _ g hginstep, rfl⟩
        · obtain ⟨a, hain, haeq⟩ := List.any_eq_true.1 hany
          have haeq2 : a.guildID = g.guildID := by simpa using haeq
          have hain2 : a ∈ guildScanStep uu acc g := by
            unfold guildScanStep
            split
            · exact List.mem_append_left _ hain
            · exact hain
          exact ⟨a, guildScanStep_fold_mono uu l _ a hain2, haeq2⟩
      · exact ih (guildScanStep uu acc g0) hg'

theorem notifyScanUser_fold_mono (st : Store) :
    ∀ (sids : List String) (acc : List Guild) (a : Guild),
      a ∈ acc → a ∈ sids.foldl (notifyScanUser st) acc := by
  intro sids
  induction sids with
  | nil => intro acc a ha; simpa using ha
  | cons sid rest ih =>
      intro acc a ha
      rw [List.foldl_cons]
      apply ih
      unfold notifyScanUser
      cases hu : getUserBySteamID st sid with
      | error e => exact ha
      | ok user => exact guildScanStep_fold_mono user.uuid st.guilds acc a ha

theorem notifyScanUser_fold_mem (st : Store) :
    ∀ (sids : List String) (acc : List Guild) (a : Guild),
      a ∈ sids.foldl (notifyScanUser st) acc → a ∈ acc ∨ a ∈ st.guilds := by
  intro sids
  induction sids with
  | nil => intro acc a ha; exact Or.inl (by simpa using ha)
  | cons sid rest ih =>
      intro acc a ha
      rw [List.foldl_cons] at ha
      rcases ih (notifyScanUser st acc sid) a ha with h | h
      · unfold notifyScanUser at h
        cases hu : getUserBySteamID st sid with
        | error e => rw [hu] at h; exact Or.inl h
        | ok user =>
            rw [hu] at h
            exact guildScanStep_fold_mem user.uuid st.guilds acc a h
      · exact Or.inr h

theorem notifyScanUser_fold_nodup (st : Store) :
    ∀ (sids : List String) (acc : List Guild),
      (acc.map (fun x => x.guildID)).Nodup →
      ((sids.foldl (notifyScanUser st) acc).map (fun x => x.guildID)).Nodup := by
  intro sids
  induction sids with
  | nil => intro acc h; simpa using h
  | cons sid rest ih =>
      intro acc h
      rw [List.foldl_cons]
      apply ih
      unfold notifyScanUser
      cases hu : getUserBySteamID st sid with
      | error e => exact h
      | ok user => exact guildScanStep_fold_nodup user.uuid st.guilds acc h

theorem notifyScanUser_fold_insert (st : Store) (g : Guild) (hg : g ∈ st.guilds)
    (user : User) (hcont : g.userIDs.contains user.uuid = true) :
    ∀ (sids : List String) (acc : List Guild) (sid : String), sid ∈ sids →
      getUserBySteamID st sid = Except.ok user →
      ∃ a ∈ sids.foldl (notifyScanUser st) acc, a.guildID = g.guildID := by
  intro sids
  induction sids with
  | nil => intro acc sid h _; simp at h
  | cons sid0 rest ih =>
      intro acc sid hsid hu
      rw [List.foldl_cons]
      rcases List.mem_cons.1 hsid with heq | hsid'
      · subst heq
        have hstep : ∃ a ∈ notifyScanUser st acc sid, a.guildID = g.guildID := by
          unfold notifyScanUser
          simp only [hu]
          exact guildScanStep_fold_insert user.uuid g hcont st.guilds acc hg
        obtain ⟨a, hain, haeq⟩ := hstep
        exact ⟨a, notifyScanUser_fold_mono st rest _ a hain, haeq⟩
      · exact ih (notifyScanUser st acc sid0) sid hsid' hu

theorem guildsToNotify_nodup (st : Store) (game : Game) :
    ((guildsToNotify st game).map (fun x => x.guildID)).Nodup :=
  notifyScanUser_fold_nodup st game.steamIDs [] (by simp)

theorem guildsToNotify_mem_store (st : Store) (game : Game) (a : Guild)
    (ha : a ∈ guildsToNotify st game) : a ∈ st.guilds := by
  rcases notifyScanUser_fold_mem st game.steamIDs [] a ha with h | h
  · simp at h
  · exact h

/-- C4. For every parsed match, a guild holding at least one registered
participant is sent exactly one notification, and the registered-players
list inside any notification addressed to that guild is exactly the match's
participants that are registered members of that guild. -/
theorem fanoutOncePerGuild_scoped (st : Store) (game : Game) (g : Guild) (hs : Bool)
    (hnodup : (st.guilds.map (fun x => x.guildID)).Nodup)
    (hg : g ∈ st.guilds)
    (hpart : ∃ sid ∈ game.steamIDs, ∃ user : User,
        getUserBySteamID st sid = Except.ok user ∧ g.userIDs.contains user.uuid = true) :
    ∃ notifs, sendMatchSummaryToGuilds true st game hs = Except.ok notifs ∧
      (notifs.map Prod.fst).count g.guildID = 1 ∧
      ∀ p ∈ notifs, p.1 = g.guildID →
        p.2.registeredPlayers = game.steamIDs.filter (isRegisteredMember st g) := by
  have hok : sendMatchSummaryToGuilds true st game hs
      = Except.ok ((guildsToNotify st game).map
          (fun gg => (gg.guildID, sendMatchSummary st gg game hs))) := rfl
  refine ⟨_, hok, ?_, ?_⟩
  · have hmapmap :
        ((guildsToNotify st game).map
            (fun gg => (gg.guildID, sendMatchSummary st gg game hs))).map Prod.fst
          = (guildsToNotify st game).map (fun gg => gg.guildID) := by
      rw [List.map_map]
      rfl
    rw [hmapmap]
    obtain ⟨sid, hsid, user, hu, hcont⟩ := hpart
    obtain ⟨a, hain, haeq⟩ :=
      notifyScanUser_fold_insert st g hg user hcont game.steamIDs [] sid hsid hu
    have hmem : g.guildID ∈ (guildsToNotify st game).map (fun x => x.guildID) :=
      List.mem_map.2 ⟨a, hain, haeq⟩
    have hle := List.nodup_iff_count_le_one.1 (guildsToNotify_nodup st game) g.guildID
    have hpos := List.count_pos_iff.2 hmem
    omega
  · intro p hp hfst
    obtain ⟨gg, hgg, rfl⟩ := List.mem_map.1 hp
    have hgg2 : gg ∈ st.guilds := guildsToNotify_mem_store st game gg hgg
    have hegg : gg = g :=
      List.inj_on_of_nodup_map hnodup hgg2 hg (by simpa using hfst)
    subst hegg
    simp [sendMatchSummary, registeredPlayersForGuild_eq_filter]

/-- C9. One maintenance tick applies the CleanupProcessedCodes policy: the
processed set is cleared entirely exactly when its size exceeds the
1000-entry high-water mark, and after the tick its size is at most 1000. -/
theorem cleanupBoundsProcessedCodes (ps : PollerState) :
    (hourlyCleanup ps).processedCodes
      = (if ps.processedCodes.length > 1000 then [] else ps.processedCodes) ∧
    (hourlyCleanup ps).processedCodes.length ≤ 1000 := by
  unfold hourlyCleanup CleanupProcessedCodes
  by_cases h : ps.processedCodes.length > 1000
  · simp [h]
  · simp [h]
    omega


/-- Concrete store for exercising the demoParsed path: one registered user,
one guild holding that user, and a stored match with demo path old.dem. -/
def c2Store : Store :=
  { users := [{ uuid := "u1", steamID := "S1", authCode := "a", lastShareCode := "c", gameIDs := [] }]
    guilds := [{ uuid := "gx", guildID := "X", channelID := "chan", userIDs := ["u1"], gameIDs := [] }]
    games := [{ uuid := "m1", shareCode := "CSGO-M", demoName := "old.dem", steamIDs := ["S1"] }] }

/-- Concrete demoParsed payload carrying a demo path that differs from the
stored one. -/
def c2Payload : DemoParsedPayload :=
  { success := true, message := "parsed", shareCode := "CSGO-M", demoPath := "new.dem"
    hasStats := true }

/-- C2 counterexample: a successful demoParsed webhook for a stored match
leaves the store byte-for-byte unchanged — the stored demo path stays
old.dem although the payload carries new.dem — so the event does not update
the Match record, refuting the claim as stated. -/
theorem demoParsedNoUpdate_cex :
    (mainDemoParsedHandler c2Store c2Payload).store = c2Store ∧
    (mainDemoParsedHandler c2Store c2Payload).store.games.map (fun g => g.demoName)
      = ["old.dem"] ∧
    c2Payload.demoPath = "new.dem" ∧
    (mainDemoParsedHandler c2Store c2Payload).status = 200 := by
  refine ⟨rfl, rfl, rfl, rfl⟩

/-- C2 (amended). A demoParsed webhook with success, a nonempty share code
and a stored match is answered 200, leaves the store unchanged (the handler
only reads the Match record), and invokes the fan-out: the notifications are
exactly one per interested guild as computed by guildsToNotify. -/
theorem demoParsedReadsAndFansOut (st : Store) (payload : DemoParsedPayload) (game : Game)
    (hsucc : payload.success = true) (hsc : payload.shareCode ≠ "")
    (hgame : getGameByShareCode st payload.shareCode = Except.ok game) :
    (mainDemoParsedHandler st payload).status = 200 ∧
    (mainDemoParsedHandler st payload).store = st ∧
    (mainDemoParsedHandler st payload).notifications
      = (guildsToNotify st game).map
          (fun g => (g.guildID, sendMatchSummary st g game payload.hasStats)) := by
  unfold mainDemoParsedHandler demoParsedRoute HandleDemoParsed
  simp [hsucc, hsc, hgame, sendMatchSummaryToGuilds]

/-- Witness for C2 (amended) at the concrete store and payload. -/
theorem demoParsedReadsAndFansOut_witness :
    c2Payload.success = true ∧ c2Payload.shareCode ≠ "" ∧
    getGameByShareCode c2Store c2Payload.shareCode
      = Except.ok { uuid := "m1", shareCode := "CSGO-M", demoName := "old.dem", steamIDs := ["S1"] } ∧
    ((mainDemoParsedHandler c2Store c2Payload).status = 200 ∧
     (mainDemoParsedHandler c2Store c2Payload).store = c2Store ∧
     (mainDemoParsedHandler c2Store c2Payload).notifications
       = (guildsToNotify c2Store
            { uuid := "m1", shareCode := "CSGO-M", demoName := "old.dem", steamIDs := ["S1"] }).map
          (fun g => (g.guildID,
            sendMatchSummary c2Store g
              { uuid := "m1", shareCode := "CSGO-M", demoName := "old.dem", steamIDs := ["S1"] }
              c2Payload.hasStats))) :=
  ⟨by decide, by decide, by rfl,
    demoParsedReadsAndFansOut c2Store c2Payload
      { uuid := "m1", shareCode := "CSGO-M", demoName := "old.dem", steamIDs := ["S1"] }
      (by decide) (by decide) (by rfl)⟩

/-- Concrete store for the unregistered-participant scenario: S1 registered
and a member of guild X; no other users. -/
def c7Store : Store :=
  { users := [{ uuid := "u1", steamID := "S1", authCode := "a", lastShareCode := "c", gameIDs := [] }]
    guilds := [{ uuid := "gx", guildID := "X", channelID := "chan", userIDs := ["u1"], gameIDs := [] }]
    games := [] }

/-- Concrete match with participants S1 (registered) and S9 (unknown). -/
def c7Game : Game :=
  { uuid := "m1", shareCode := "CSGO-M", demoName := "d.dem", steamIDs := ["S1", "S9"] }

/-- C7 counterexample: the notification sent to guild X for a match with
participants S1 (registered) and S9 (unknown) carries only S1 in its player
list; S9 appears nowhere in the message content, so it is not included
annotated as unregistered, refuting the claim as stated. -/
theorem unregisteredOmitted_cex :
    sendMatchSummaryToGuilds true c7Store c7Game false
      = Except.ok [("X",
          { shareCode := "CSGO-M", demoName := "d.dem", playerCount := 2
            registeredPlayers := ["S1"], hasStats := false })] ∧
    ∀ p ∈ ([("X", MatchSummaryEmbed.mk "CSGO-M" "d.dem" 2 ["S1"] false)] :
        List (String × MatchSummaryEmbed)),
      "S9" ∉ p.2.registeredPlayers := by
  refine ⟨rfl, by decide⟩

/-- C7 (amended). An unregistered participant of a match is omitted from
every guild's registered-players list (it contributes only to the aggregate
participant count), does not by itself cause any guild to be notified, and
the fan-out still succeeds without error. -/
theorem unregisteredParticipant_amended (st : Store) (game : Game) (g : Guild)
    (sid : String) (hs : Bool) (e : DBErr)
    (hmem : sid ∈ game.steamIDs)
    (hunreg : getUserBySteamID st sid = Except.error e) :
    sid ∉ registeredPlayersForGuild st g game ∧
    guildsToNotify st { game with steamIDs := [sid] } = [] ∧
    (sendMatchSummaryToGuilds true st game hs).isOk = true ∧
    (sendMatchSummary st g game hs).playerCount = game.steamIDs.length := by
  refine ⟨?_, ?_, rfl, rfl⟩
  · rw [registeredPlayersForGuild_eq_filter]
    intro hin
    have hflt := List.of_mem_filter hin
    unfold isRegisteredMember at hflt
    simp only [hunreg] at hflt
    exact Bool.noConfusion hflt
  · unfold guildsToNotify
    simp [notifyScanUser, hunreg]

/-- Witness for C7 (amended): participant S9 of the concrete match is
unknown to the store. -/
theorem unregisteredParticipant_amended_witness :
    "S9" ∈ c7Game.steamIDs ∧
    getUserBySteamID c7Store "S9" = Except.error (DBErr.wrapped DBErr.noRows) ∧
    ("S9" ∉ registeredPlayersForGuild c7Store
        { uuid := "gx", guildID := "X", channelID := "chan", userIDs := ["u1"], gameIDs := [] }
        c7Game ∧
     guildsToNotify c7Store { c7Game with steamIDs := ["S9"] } = [] ∧
     (sendMatchSummaryToGuilds true c7Store c7Game false).isOk = true ∧
     (sendMatchSummary c7Store
        { uuid := "gx", guildID := "X", channelID := "chan", userIDs := ["u1"], gameIDs := [] }
        c7Game false).playerCount = c7Game.steamIDs.length) :=
  ⟨by decide, by rfl,
    unregisteredParticipant_amended c7Store c7Game
      { uuid := "gx", guildID := "X", channelID := "chan", userIDs := ["u1"], gameIDs := [] }
      "S9" false (DBErr.wrapped DBErr.noRows) (by decide) (by rfl)⟩


/-- Concrete two-account store for exercising a full poll cycle. -/
def c1Store : Store :=
  { users := [{ uuid := "u1", steamID := "S1", authCode := "a", lastShareCode := "OLD1", gameIDs := [] },
              { uuid := "u2", steamID := "S2", authCode := "a", lastShareCode := "OLD2", gameIDs := [] }]
    guilds := []
    games := [] }

/-- Witness for C1 at a concrete cycle: two accounts both reporting token T. -/
theorem dedupCorrectness_pollCycle_witness :
    (PollerState.mk [] []).processedCodes.contains "T" = false ∧
    c1Store.users ≠ [] ∧
    (∀ u ∈ c1Store.users,
        u.lastShareCode ≠ "" ∧ (fun (_ : User) => some "T") u = some "T" ∧
        discoversNew u "T" = true) ∧
    ((pollAllUsers (fun _ => true) (fun _ => some "T") c1Store (PollerState.mk [] [])).2.demoRequests.count "T"
        = (PollerState.mk [] []).demoRequests.count "T" + 1 ∧
     ∀ u ∈ (pollAllUsers (fun _ => true) (fun _ => some "T") c1Store (PollerState.mk [] [])).1.users,
        u.lastShareCode = "T") :=
  ⟨by decide, by decide, by decide,
    dedupCorrectness_pollCycle (fun _ => true) (fun _ => some "T") c1Store
      (PollerState.mk [] []) "T" (by decide) (by decide) (by decide)⟩

/-- Concrete store for the fan-out witness: S1 registered and a member of
guild X; guild Y has no members. -/
def c4Store : Store :=
  { users := [{ uuid := "u1", steamID := "S1", authCode := "a", lastShareCode := "c", gameIDs := [] }]
    guilds := [{ uuid := "gx", guildID := "X", channelID := "chan", userIDs := ["u1"], gameIDs := [] },
               { uuid := "gy", guildID := "Y", channelID := "chan2", userIDs := [], gameIDs := [] }]
    games := [] }

/-- Concrete match for the fan-out witness. -/
def c4Game : Game :=
  { uuid := "m1", shareCode := "CSGO-M", demoName := "d.dem", steamIDs := ["S1", "S9"] }

/-- Witness for C4: guild X holds registered participant S1 of the concrete
match, so it is notified exactly once with the scoped player list. -/
theorem fanoutOncePerGuild_scoped_witness :
    (c4Store.guilds.map (fun x => x.guildID)).Nodup ∧
    ({ uuid := "gx", guildID := "X", channelID := "chan", userIDs := ["u1"], gameIDs := [] } : Guild)
      ∈ c4Store.guilds ∧
    (∃ sid ∈ c4Game.steamIDs, ∃ user : User,
        getUserBySteamID c4Store sid = Except.ok user ∧
        ({ uuid := "gx", guildID := "X", channelID := "chan", userIDs := ["u1"], gameIDs := [] } : Guild).userIDs.contains user.uuid = true) ∧
    (∃ notifs, sendMatchSummaryToGuilds true c4Store c4Game false = Except.ok notifs ∧
      (notifs.map Prod.fst).count
          ({ uuid := "gx", guildID := "X", channelID := "chan", userIDs := ["u1"], gameIDs := [] } : Guild).guildID
        = 1 ∧
      ∀ p ∈ notifs,
        p.1 = ({ uuid := "gx", guildID := "X", channelID := "chan", userIDs := ["u1"], gameIDs := [] } : Guild).guildID →
        p.2.registeredPlayers
          = c4Game.steamIDs.filter (isRegisteredMember c4Store
              { uuid := "gx", guildID := "X", channelID := "chan", userIDs := ["u1"], gameIDs := [] })) :=
  ⟨by decide, by decide,
    ⟨"S1", by decide,
      ⟨{ uuid := "u1", steamID := "S1", authCode := "a", lastShareCode := "c", gameIDs := [] },
        by rfl, by decide⟩⟩,
    fanoutOncePerGuild_scoped c4Store c4Game
      { uuid := "gx", guildID := "X", channelID := "chan", userIDs := ["u1"], gameIDs := [] }
      false (by decide) (by decide)
      ⟨"S1", by decide,
        ⟨{ uuid := "u1", steamID := "S1", authCode := "a", lastShareCode := "c", gameIDs := [] },
          by rfl, by decide⟩⟩⟩

/-- Witness for C6 at a concrete token whose download fails. -/
theorem retryAfterFailure_witness :
    (PollerState.mk [] []).processedCodes.contains "T" = false ∧
    (((fun (c : String) => c == "B") "T" = false →
        (processNewMatch (fun c => c == "B") "T" ["S1"] c1Store (PollerState.mk [] [])).2.processedCodes.contains "T" = false ∧
        (processNewMatch (fun c => c == "B") "T" ["S2"]
            (processNewMatch (fun c => c == "B") "T" ["S1"] c1Store (PollerState.mk [] [])).1
            (processNewMatch (fun c => c == "B") "T" ["S1"] c1Store (PollerState.mk [] [])).2).2.demoRequests.count "T"
          = (processNewMatch (fun c => c == "B") "T" ["S1"] c1Store (PollerState.mk [] [])).2.demoRequests.count "T" + 1) ∧
     ((fun (c : String) => c == "B") "T" = true →
        (processNewMatch (fun c => c == "B") "T" ["S1"] c1Store (PollerState.mk [] [])).2.processedCodes.contains "T" = true ∧
        processNewMatch (fun c => c == "B") "T" ["S2"]
            (processNewMatch (fun c => c == "B") "T" ["S1"] c1Store (PollerState.mk [] [])).1
            (processNewMatch (fun c => c == "B") "T" ["S1"] c1Store (PollerState.mk [] [])).2
          = ((processNewMatch (fun c => c == "B") "T" ["S1"] c1Store (PollerState.mk [] [])).1,
             (processNewMatch (fun c => c == "B") "T" ["S1"] c1Store (PollerState.mk [] [])).2))) :=
  ⟨by decide,
    retryAfterFailure (fun c => c == "B") "T" ["S1"] ["S2"] c1Store
      (PollerState.mk [] []) (by decide)⟩

/-- Witness for C10 at a concrete failing download for token T reported by
account S1. -/
theorem failedDownloadKeepsShareCodes_witness :
    (PollerState.mk [] []).processedCodes.contains "T" = false ∧
    (fun (_ : String) => false) "T" = false ∧
    ((∀ u ∈ (processNewMatch (fun _ => false) "T" ["S1"] c1Store (PollerState.mk [] [])).1.users,
        u.steamID ∈ ["S1"] → u.lastShareCode = "T") ∧
     (processNewMatch (fun _ => false) "T" ["S1"] c1Store (PollerState.mk [] [])).2.processedCodes.contains "T" = false ∧
     (∀ u ∈ (processNewMatch (fun _ => false) "T" ["S1"] c1Store (PollerState.mk [] [])).1.users,
        u.steamID ∈ ["S1"] → discoversNew u "T" = false) ∧
     (∀ (poll : User → Option String) (ids : List String),
        ("T", ids) ∈ buildGroups poll
            (processNewMatch (fun _ => false) "T" ["S1"] c1Store (PollerState.mk [] [])).1.users →
        ∀ sid ∈ ["S1"], sid ∉ ids)) :=
  ⟨by decide, by decide,
    failedDownloadKeepsShareCodes (fun _ => false) "T" ["S1"] c1Store
      (PollerState.mk [] []) (by decide) (by decide)⟩

end CSBot
